import Mathlib

/-!
Verification of the core of `lint/util.py` (SublimeLinter): a shallow embedding of
the subprocess-execution and environment-resolution layer, together with proofs of
the specified properties.

Modelling conventions:
* Python `str` values are modelled as `List Char`, Python `bytes` as `List Nat`
  (each element a byte value).
* Functions of the operating system or of external collaborators
  (`os.path.abspath`/`expanduser`, `os.path.join`, `os.path.relpath`,
  `os.path.isfile`/`os.access`, `locale.getpreferredencoding`-based decoding,
  `pprint.pformat`) are taken as parameters: the module under verification only
  composes them.
* Side effects (logging, the failure-notification callback, the stderr callback,
  process-registry mutation) are modelled as an explicit event trace.
-/

namespace SublimeLinterUtil

/-! ### ANSI color stripping (util.py:21 and util.py:292-294)

`ANSI_COLOR_RE = re.compile(r'\033\[[0-9;]*m')` and
`_post_process_fh` substitutes every match by the empty string.
`re.sub` scans left to right: at each position it takes the match starting
there if any (the pattern is deterministic: after `ESC [` the greedy class
`[0-9;]*` runs maximally and must be followed by `m`, and no shorter run can be,
since a shorter run stops at a digit or semicolon, never at `m`), removes it and
resumes right after the removed match; otherwise it keeps the character and
moves one position right. -/

/-- The ESC character `\033`. -/
def escChar : Char := Char.ofNat 27

/-- Characters matched by the class `[0-9;]`. -/
def isSGRBody (c : Char) : Bool := c.isDigit || c = ';'

/-- After an ESC character, try to match `\[[0-9;]*m`; return the remainder of
the text after the match, or `none` if there is no match here. -/
def sgrTail : List Char → Option (List Char)
  | [] => none
  | c :: rest =>
    if c = '[' then
      match rest.dropWhile isSGRBody with
      | [] => none
      | c2 :: tail => if c2 = 'm' then some tail else none
    else none

theorem dropWhile_length_le (p : Char → Bool) (l : List Char) :
    (l.dropWhile p).length ≤ l.length := by
  induction l with
  | nil => simp [List.dropWhile]
  | cons c rest ih =>
    rw [List.dropWhile]
    by_cases h : p c
    · simp only [h]
      simp
      omega
    · simp only [h]
      simp

theorem sgrTail_length {l t : List Char} (h : sgrTail l = some t) :
    t.length < l.length := by
  match l with
  | [] => simp [sgrTail] at h
  | c :: rest =>
    simp only [sgrTail] at h
    by_cases hc : c = '['
    · rw [if_pos hc] at h
      have hd := dropWhile_length_le isSGRBody rest
      match hm : rest.dropWhile isSGRBody with
      | [] => rw [hm] at h; simp at h
      | c2 :: tail =>
        rw [hm] at h
        dsimp only at h
        by_cases hc2 : c2 = 'm'
        · rw [if_pos hc2] at h
          injection h with h
          subst h
          rw [hm] at hd
          simp at hd
          simp
          omega
        · rw [if_neg hc2] at h; simp at h
    · rw [if_neg hc] at h; simp at h

/-- Fuel-driven worker for `stripAnsi`; when the fuel is at least the length
of the text (as it always is below) the fuel never runs out, since a match
consumes at least its ESC character. -/
def stripAnsiAux : Nat → List Char → List Char
  | _, [] => []
  | 0, _ :: _ => []
  | fuel + 1, c :: rest =>
    if c = escChar then
      match sgrTail rest with
      | some tail => stripAnsiAux fuel tail
      | none => c :: stripAnsiAux fuel rest
    else
      c :: stripAnsiAux fuel rest

/-- `ANSI_COLOR_RE.sub('', text)` (util.py:294): remove every occurrence of
`ESC [ <digits-and-semicolons>* m`. -/
def stripAnsi (l : List Char) : List Char := stripAnsiAux l.length l

theorem stripAnsiAux_irrel :
    ∀ (f1 : Nat) (l : List Char) (f2 : Nat), l.length ≤ f1 → l.length ≤ f2 →
      stripAnsiAux f1 l = stripAnsiAux f2 l := by
  intro f1
  induction f1 with
  | zero =>
    intro l f2 h1 h2
    cases l with
    | nil => cases f2 <;> rfl
    | cons c rest => simp at h1
  | succ fuel ih =>
    intro l f2 h1 h2
    cases l with
    | nil => cases f2 <;> rfl
    | cons c rest =>
      cases f2 with
      | zero => simp at h2
      | succ f2b =>
        simp only [List.length_cons] at h1 h2
        simp only [stripAnsiAux]
        by_cases hc : c = escChar
        · rw [if_pos hc, if_pos hc]
          cases hm : sgrTail rest with
          | some tail =>
            have ht := sgrTail_length hm
            exact ih tail f2b (by omega) (by omega)
          | none =>
            rw [ih rest f2b (by omega) (by omega)]
        · rw [if_neg hc, if_neg hc, ih rest f2b (by omega) (by omega)]

theorem stripAnsi_nil : stripAnsi [] = [] := rfl

theorem stripAnsi_cons_ne (c : Char) (rest : List Char) (hc : c ≠ escChar) :
    stripAnsi (c :: rest) = c :: stripAnsi rest := by
  show stripAnsiAux (rest.length + 1) (c :: rest) = c :: stripAnsi rest
  simp only [stripAnsiAux]
  rw [if_neg hc]
  rfl

theorem stripAnsi_cons_esc_some (rest tail : List Char) (h : sgrTail rest = some tail) :
    stripAnsi (escChar :: rest) = stripAnsi tail := by
  show stripAnsiAux (rest.length + 1) (escChar :: rest) = stripAnsi tail
  simp only [stripAnsiAux]
  rw [if_pos trivial, h]
  exact stripAnsiAux_irrel rest.length tail tail.length (le_of_lt (sgrTail_length h))
    (le_refl _)

theorem stripAnsi_cons_esc_none (rest : List Char) (h : sgrTail rest = none) :
    stripAnsi (escChar :: rest) = escChar :: stripAnsi rest := by
  show stripAnsiAux (rest.length + 1) (escChar :: rest) = escChar :: stripAnsi rest
  simp only [stripAnsiAux]
  rw [if_pos trivial, h]
  rfl

/-- A text without ESC characters is a fixed point of `stripAnsi`. -/
theorem stripAnsi_of_no_esc (l : List Char) (h : escChar ∉ l) :
    stripAnsi l = l := by
  induction l with
  | nil => exact stripAnsi_nil
  | cons c rest ih =>
    have hc : c ≠ escChar := fun he => h (he ▸ List.mem_cons_self c rest)
    have hrest : escChar ∉ rest := fun hm => h (List.mem_cons_of_mem c hm)
    rw [stripAnsi_cons_ne c rest hc, ih hrest]

/-! ### Byte decoding (util.py:297-312)

`decode(bytes)`: empty or absent input yields `''`; otherwise try
`bytes.decode('utf8')` (strict UTF-8 per RFC 3629: no overlong forms, no
surrogates, nothing above U+10FFFF); on `UnicodeError` fall back to
`bytes.decode(locale.getpreferredencoding(), errors='replace')`, which is a
total function of the bytes (modelled abstractly as `fallback`). -/

/-- One step of strict UTF-8 decoding: given the first byte `b` and the
remaining bytes `l`, return the decoded code point and the bytes left over, or
`none` when no valid encoded code point starts here.  This models the
acceptance behaviour of Python `bytes.decode('utf8')` (RFC 3629: continuation
bytes are `0x80-0xBF`; overlong encodings, surrogate code points
`0xD800-0xDFFF`, and code points above `0x10FFFF` are rejected). -/
def utf8Step (b : Nat) (l : List Nat) : Option (Nat × List Nat) :=
  if b < 0x80 then some (b, l)
  else if b < 0xE0 then
    match l with
    | c1 :: l1 =>
      if 0xC0 ≤ b ∧ (0x80 ≤ c1 ∧ c1 < 0xC0) ∧ 0x80 ≤ (b - 0xC0) * 0x40 + (c1 - 0x80) then
        some ((b - 0xC0) * 0x40 + (c1 - 0x80), l1)
      else none
    | [] => none
  else if b < 0xF0 then
    match l with
    | c1 :: c2 :: l2 =>
      if (0x80 ≤ c1 ∧ c1 < 0xC0) ∧ (0x80 ≤ c2 ∧ c2 < 0xC0) ∧
          0x800 ≤ (b - 0xE0) * 0x1000 + (c1 - 0x80) * 0x40 + (c2 - 0x80) ∧
          ((b - 0xE0) * 0x1000 + (c1 - 0x80) * 0x40 + (c2 - 0x80) < 0xD800 ∨
            0xE000 ≤ (b - 0xE0) * 0x1000 + (c1 - 0x80) * 0x40 + (c2 - 0x80)) then
        some ((b - 0xE0) * 0x1000 + (c1 - 0x80) * 0x40 + (c2 - 0x80), l2)
      else none
    | [] => none
    | [_] => none
  else if b < 0xF8 then
    match l with
    | c1 :: c2 :: c3 :: l3 =>
      if (0x80 ≤ c1 ∧ c1 < 0xC0) ∧ (0x80 ≤ c2 ∧ c2 < 0xC0) ∧ (0x80 ≤ c3 ∧ c3 < 0xC0) ∧
          0x10000 ≤ (b - 0xF0) * 0x40000 + (c1 - 0x80) * 0x1000 + (c2 - 0x80) * 0x40 + (c3 - 0x80) ∧
          (b - 0xF0) * 0x40000 + (c1 - 0x80) * 0x1000 + (c2 - 0x80) * 0x40 + (c3 - 0x80) < 0x110000 then
        some ((b - 0xF0) * 0x40000 + (c1 - 0x80) * 0x1000 + (c2 - 0x80) * 0x40 + (c3 - 0x80), l3)
      else none
    | [] => none
    | [_] => none
    | [_, _] => none
  else none

theorem utf8Step_length {b : Nat} {l : List Nat} {x : Nat × List Nat}
    (h : utf8Step b l = some x) : x.2.length ≤ l.length := by
  unfold utf8Step at h
  split at h
  · injection h with h; cases h; simp <;> omega
  · split at h
    · split at h
      · split at h
        · injection h with h; cases h; simp <;> omega
        · simp at h
      · simp at h
    · split at h
      · split at h
        · split at h
          · injection h with h; cases h; simp <;> omega
          · simp at h
        · simp at h
        · simp at h
      · split at h
        · split at h
          · split at h
            · injection h with h; cases h; simp <;> omega
            · simp at h
          · simp at h
          · simp at h
          · simp at h
        · simp at h

/-- Fuel-driven worker for `utf8DecodeList`; when the fuel is at least the
length of the input (as it always is below) the fuel never runs out, since a
step consumes at least one byte. -/
def utf8DecodeAux : Nat → List Nat → Option (List Nat)
  | _, [] => some []
  | 0, _ :: _ => none
  | fuel + 1, b :: l =>
    match utf8Step b l with
    | some x => (utf8DecodeAux fuel x.2).map (fun s => x.1 :: s)
    | none => none

/-- Strict UTF-8 decoding of a whole byte sequence to a list of code points, or
`none` when the sequence is not valid UTF-8. -/
def utf8DecodeList (l : List Nat) : Option (List Nat) := utf8DecodeAux l.length l

theorem utf8DecodeAux_irrel :
    ∀ (f1 : Nat) (l : List Nat) (f2 : Nat), l.length ≤ f1 → l.length ≤ f2 →
      utf8DecodeAux f1 l = utf8DecodeAux f2 l := by
  intro f1
  induction f1 with
  | zero =>
    intro l f2 h1 h2
    cases l with
    | nil => cases f2 <;> rfl
    | cons b rest => simp at h1
  | succ fuel ih =>
    intro l f2 h1 h2
    cases l with
    | nil => cases f2 <;> rfl
    | cons b rest =>
      cases f2 with
      | zero => simp at h2
      | succ f2b =>
        simp only [List.length_cons] at h1 h2
        simp only [utf8DecodeAux]
        cases hx : utf8Step b rest with
        | some x =>
          have hlen := utf8Step_length hx
          dsimp only
          rw [ih x.2 f2b (by omega) (by omega)]
        | none => rfl

theorem utf8DecodeList_cons_some (b : Nat) (l : List Nat) (x : Nat × List Nat)
    (h : utf8Step b l = some x) :
    utf8DecodeList (b :: l) = (utf8DecodeList x.2).map (fun s => x.1 :: s) := by
  show utf8DecodeAux (l.length + 1) (b :: l) = _
  simp only [utf8DecodeAux]
  rw [h]
  dsimp only
  rw [utf8DecodeAux_irrel l.length x.2 x.2.length (utf8Step_length h) (le_refl _)]
  rfl

/-- The standard UTF-8 encoding of one Unicode code point. -/
def utf8EncodeNat (n : Nat) : List Nat :=
  if n < 0x80 then [n]
  else if n < 0x800 then [0xC0 + n / 0x40, 0x80 + n % 0x40]
  else if n < 0x10000 then
    [0xE0 + n / 0x1000, 0x80 + (n / 0x40) % 0x40, 0x80 + n % 0x40]
  else
    [0xF0 + n / 0x40000, 0x80 + (n / 0x1000) % 0x40, 0x80 + (n / 0x40) % 0x40, 0x80 + n % 0x40]

/-- The UTF-8 encoding of a text (every Lean `Char` is a Unicode scalar value). -/
def utf8Encode (s : List Char) : List Nat := s.flatMap (fun c => utf8EncodeNat c.toNat)

/-- `decode` (util.py:297-312).  `fallback` models
`bytes.decode(locale.getpreferredencoding(), errors='replace')`, the decoding
under the host system's preferred encoding with replacement characters
substituted for undecodable bytes; with `errors='replace'` it is a total
function, so `decode` itself is total and never raises.  The argument is
`Option` because callers pass `None` for a stream that was not piped. -/
def decode (fallback : List Nat → List Char) (bytes : Option (List Nat)) : List Char :=
  match bytes with
  | none => []
  | some bs =>
    if bs.isEmpty then []
    else
      match utf8DecodeList bs with
      | some cps => cps.map Char.ofNat
      | none => fallback bs

/-- `_post_process_fh` (util.py:292-294): decode, then strip ANSI sequences. -/
def post_process_fh (fallback : List Nat → List Char) (fh : Option (List Nat)) : List Char :=
  stripAnsi (decode fallback fh)

theorem utf8DecodeList_encodeNat_append (n : Nat) (h1 : n < 0x110000)
    (h2 : n < 0xD800 ∨ 0xE000 ≤ n) (l : List Nat) :
    utf8DecodeList (utf8EncodeNat n ++ l) = (utf8DecodeList l).map (fun s => n :: s) := by
  by_cases hA : n < 0x80
  · rw [utf8EncodeNat, if_pos hA, List.cons_append, List.nil_append]
    have hstep : utf8Step n l = some (n, l) := by
      unfold utf8Step
      rw [if_pos hA]
    rw [utf8DecodeList_cons_some _ _ _ hstep]
  · by_cases hB : n < 0x800
    · rw [utf8EncodeNat, if_neg hA, if_pos hB, List.cons_append, List.cons_append,
        List.nil_append]
      have hstep : utf8Step (0xC0 + n / 0x40) ((0x80 + n % 0x40) :: l) = some (n, l) := by
        unfold utf8Step
        rw [if_neg (by omega), if_pos (by omega)]
        dsimp only
        rw [if_pos (by refine ⟨by omega, ⟨by omega, by omega⟩, by omega⟩)]
        have he : (0xC0 + n / 0x40 - 0xC0) * 0x40 + (0x80 + n % 0x40 - 0x80) = n := by omega
        rw [he]
      rw [utf8DecodeList_cons_some _ _ _ hstep]
    · by_cases hC : n < 0x10000
      · rw [utf8EncodeNat, if_neg hA, if_neg hB, if_pos hC, List.cons_append, List.cons_append,
          List.cons_append, List.nil_append]
        have hstep : utf8Step (0xE0 + n / 0x1000)
            ((0x80 + (n / 0x40) % 0x40) :: (0x80 + n % 0x40) :: l) = some (n, l) := by
          unfold utf8Step
          rw [if_neg (by omega), if_neg (by omega), if_pos (by omega)]
          dsimp only
          have he : (0xE0 + n / 0x1000 - 0xE0) * 0x1000 + (0x80 + (n / 0x40) % 0x40 - 0x80) * 0x40
              + (0x80 + n % 0x40 - 0x80) = n := by omega
          rw [he]
          rw [if_pos (by refine ⟨⟨by omega, by omega⟩, ⟨by omega, by omega⟩, by omega, h2⟩)]
        rw [utf8DecodeList_cons_some _ _ _ hstep]
      · rw [utf8EncodeNat, if_neg hA, if_neg hB, if_neg hC, List.cons_append, List.cons_append,
          List.cons_append, List.cons_append, List.nil_append]
        have hstep : utf8Step (0xF0 + n / 0x40000)
            ((0x80 + (n / 0x1000) % 0x40) :: (0x80 + (n / 0x40) % 0x40) :: (0x80 + n % 0x40) :: l)
            = some (n, l) := by
          unfold utf8Step
          rw [if_neg (by omega), if_neg (by omega), if_neg (by omega), if_pos (by omega)]
          dsimp only
          have he : (0xF0 + n / 0x40000 - 0xF0) * 0x40000
              + (0x80 + (n / 0x1000) % 0x40 - 0x80) * 0x1000
              + (0x80 + (n / 0x40) % 0x40 - 0x80) * 0x40 + (0x80 + n % 0x40 - 0x80) = n := by omega
          rw [he]
          rw [if_pos (by refine ⟨⟨by omega, by omega⟩, ⟨by omega, by omega⟩, ⟨by omega, by omega⟩,
            by omega, h1⟩)]
        rw [utf8DecodeList_cons_some _ _ _ hstep]

theorem char_toNat_lt (c : Char) : c.toNat < 0x110000 := by
  have h := c.valid
  simp only [Char.toNat]
  rcases h with h | h <;> omega

theorem char_toNat_not_surrogate (c : Char) : c.toNat < 0xD800 ∨ 0xE000 ≤ c.toNat := by
  have h := c.valid
  simp only [Char.toNat]
  rcases h with h | h
  · left; omega
  · right; omega

theorem utf8DecodeList_utf8Encode (s : List Char) :
    utf8DecodeList (utf8Encode s) = some (s.map Char.toNat) := by
  induction s with
  | nil => rfl
  | cons c rest ih =>
    rw [show utf8Encode (c :: rest) = utf8EncodeNat c.toNat ++ utf8Encode rest from rfl]
    rw [utf8DecodeList_encodeNat_append c.toNat (char_toNat_lt c) (char_toNat_not_surrogate c)]
    rw [ih]
    rfl

theorem utf8EncodeNat_ne_nil (n : Nat) : utf8EncodeNat n ≠ [] := by
  rw [utf8EncodeNat]
  by_cases hA : n < 0x80
  · simp [hA]
  · by_cases hB : n < 0x800
    · simp [hA, hB]
    · by_cases hC : n < 0x10000 <;> simp [hA, hB, hC]

theorem utf8Encode_eq_nil (s : List Char) (h : utf8Encode s = []) : s = [] := by
  cases s with
  | nil => rfl
  | cons c rest =>
    exfalso
    rw [show utf8Encode (c :: rest) = utf8EncodeNat c.toNat ++ utf8Encode rest from rfl] at h
    exact utf8EncodeNat_ne_nil c.toNat (List.append_eq_nil.mp h).1

/-! ### Python dict and str helpers -/

/-- Lookup in a Python dict modelled as an association list with unique keys
(first matching binding wins). -/
def dictGet {β : Type} (k : List Char) : List (List Char × β) → Option β
  | [] => none
  | kv :: rest => if kv.1 = k then some kv.2 else dictGet k rest

/-- Assignment `d[k] = v` on a Python dict modelled as an association list:
replace the first binding of `k`, or append a new binding. -/
def dictSet {β : Type} (k : List Char) (v : β) : List (List Char × β) → List (List Char × β)
  | [] => [(k, v)]
  | kv :: rest => if kv.1 = k then (k, v) :: rest else kv :: dictSet k v rest

/-- Python `s.split(sep)` for a single-character separator: split at every
occurrence, keeping empty parts; the empty string splits to `['']`. -/
def splitOnChar (sep : Char) : List Char → List (List Char)
  | [] => [[]]
  | c :: rest =>
    if c = sep then [] :: splitOnChar sep rest
    else
      match splitOnChar sep rest with
      | h :: t => (c :: h) :: t
      | [] => [[c]]

/-- Python `sep.join(parts)` for a single-character separator. -/
def joinChar (sep : Char) : List (List Char) → List Char
  | [] => []
  | [x] => x
  | x :: xs => x ++ sep :: joinChar sep xs

/-- The key string `'PATH'`. -/
def pathKey : List Char := ['P', 'A', 'T', 'H']

/-- The platform string `'windows'` returned by `sublime.platform()` on Windows. -/
def windowsStr : List Char := ['w', 'i', 'n', 'd', 'o', 'w', 's']

/-! ### `create_environment` (util.py:107-132)

`env = {}; env.update(os.environ)` copies the inherited environment (the
inherited mapping itself is never mutated — the model returns a new
association list and leaves `environ` untouched).  `paths` is the
`persist.settings.get('paths', {})` dict, modelled with its values already
passed through `convert_type(·, [])`, which is the identity on lists
(util.py:343).  Each entry is normalized by
`os.path.abspath(os.path.expanduser(·))`, modelled by the abstract OS function
`norm`.  If the normalized list is non-empty it is joined with `os.pathsep`
and prepended, with a separator, to `env['PATH']`; `env['PATH']` raises
`KeyError` (modelled as `none`) when the inherited environment has no PATH.
The `debug_print_env` call only logs and is omitted. -/
def create_environment (environ : List (List Char × List Char))
    (settings_paths : List (List Char × List (List Char)))
    (platform : List Char) (norm : List Char → List Char) (pathsep : Char) :
    Option (List (List Char × List Char)) :=
  match dictGet platform settings_paths with
  | none => some environ
  | some ps =>
    if (ps.map norm).isEmpty then some environ
    else
      match dictGet pathKey environ with
      | none => none
      | some orig =>
        some (dictSet pathKey (joinChar pathsep (ps.map norm) ++ pathsep :: orig) environ)

/-! ### `can_exec`, `which`, `find_executables` (util.py:135-165)

`can_exec(path)` is `os.path.isfile(path) and os.access(path, os.X_OK)` — a
pure filesystem query, taken as the abstract predicate `can_exec`.
`find_executables` iterates over the PATH entries of the resolved environment
(`env.get('PATH', '')` split on `os.pathsep`), joins each (after
`os.path.expanduser`) with the executable name, and on the Windows platform
probes `.exe`, `.cmd`, `.bat` (in that fixed order) when the candidate has no
extension; `which` returns the first yielded path or `None`. -/

/-- The basename of a path under Windows conventions: the part after the last
`\\` or `/` separator (`ntpath` uses both). -/
def lastComponentNT (p : List Char) : List Char :=
  p.foldl (fun acc c => if c = '\\' ∨ c = '/' then [] else acc ++ [c]) []

/-- `os.path.splitext(p)[1]` under Windows conventions: the extension including
its dot, empty when the basename has no dot preceded by some non-dot character
(`genericpath._splitext`: leading dots of the basename do not start an
extension). -/
def ntExt (p : List Char) : List Char :=
  let b := lastComponentNT p
  let r := b.reverse
  let post := r.takeWhile (fun c => c ≠ '.')
  if post.length = r.length then []
  else if (r.drop (post.length + 1)).any (fun c => c ≠ '.') then '.' :: post.reverse
  else []

/-- The extension strings probed on Windows, in the fixed source order
`('.exe', '.cmd', '.bat')` (util.py:157). -/
def winExts : List (List Char) := [['.', 'e', 'x', 'e'], ['.', 'c', 'm', 'd'], ['.', 'b', 'a', 't']]

/-- The body of the `find_executables` loop for one PATH entry `base`
(util.py:153-163): build `path = os.path.join(os.path.expanduser(base), executable)`;
on Windows, when `path` has no extension, yield `path + ext` for each probed
extension that satisfies `can_exec`; otherwise yield `path` iff `can_exec path`. -/
def dir_probe (platform : List Char) (can_exec : List Char → Bool)
    (expanduser : List Char → List Char) (join : List Char → List Char → List Char)
    (executable : List Char) (base : List Char) : List (List Char) :=
  if platform = windowsStr ∧ ntExt (join (expanduser base) executable) = [] then
    (winExts.map (fun e => join (expanduser base) executable ++ e)).filter can_exec
  else if can_exec (join (expanduser base) executable) then [join (expanduser base) executable]
  else []

/-- `find_executables(executable)` (util.py:148-165), parametrized by the
resolved environment `env` (the source obtains it from `create_environment()`)
and the abstract OS functions.  The generator is modelled as the full finite
list it yields. -/
def find_executables (platform : List Char) (can_exec : List Char → Bool)
    (expanduser : List Char → List Char) (join : List Char → List Char → List Char)
    (pathsep : Char) (env : List (List Char × List Char)) (executable : List Char) :
    List (List Char) :=
  (splitOnChar pathsep ((dictGet pathKey env).getD [])).flatMap
    (dir_probe platform can_exec expanduser join executable)

/-- `which(cmd)` (util.py:140-145): the first element yielded by
`find_executables`, or `None`. -/
def which (platform : List Char) (can_exec : List Char → Bool)
    (expanduser : List Char → List Char) (join : List Char → List Char → List Char)
    (pathsep : Char) (env : List (List Char × List Char)) (cmd : List Char) :
    Option (List Char) :=
  (find_executables platform can_exec expanduser join pathsep env cmd).head?

/-! ### `make_nice_log_message` (util.py:171-216)

Templates (util.py:171-184):
`RUNNING_TEMPLATE`, `PIPE_TEMPLATE = ' type {} |' if os.name == 'nt' else ' cat {} |'`
(chosen at import time, modelled by the flag `osIsNt`), `ENV_TEMPLATE`.

The source has a genuine gap: `rel_filename` is assigned when
`filename and cwd` holds or when `not filename` holds, but NOT when a
filename is present (truthy) while `cwd` is falsy; in that case, when
`is_stdin` is true, `PIPE_TEMPLATE.format(rel_filename)` raises
`UnboundLocalError`.  The model returns `none` exactly there. -/

/-- A Sublime view as seen by this module: `view.file_name()` (may be `None`)
and `view.buffer_id()`. -/
structure View where
  file_name : Option (List Char)
  buffer_id : Nat
deriving DecidableEq

/-- Python truthiness of an optional string: `None` and `''` are falsy. -/
def pyTruthy (s : Option (List Char)) : Bool :=
  match s with
  | some l => !l.isEmpty
  | none => false

/-- Decimal digits of a natural number (Python `'{}'.format(n)` for `int`). -/
def natChars (n : Nat) : List Char := (Nat.repr n).data

/-- `make_nice_log_message(headline, cmd, is_stdin, cwd, view, env)`
(util.py:187-216).  `relpath` models `os.path.relpath`, `realCwd` models
`os.path.realpath(os.path.curdir)`, `pformat` models the
`textwrap.indent(pprint.pformat(env, ...), ...)` dump, and `osIsNt` tells
whether `os.name == 'nt'`.  Result `none` models the `UnboundLocalError`
described above; otherwise the formatted text is returned. -/
def make_nice_log_message (relpath : List Char → List Char → List Char)
    (realCwd : List Char) (pformat : List (List Char × List Char) → List Char)
    (osIsNt : Bool) (headline : List Char) (cmd : List (List Char)) (is_stdin : Bool)
    (cwd : Option (List Char)) (view : Option View)
    (env : Option (List (List Char × List Char))) : Option (List Char) :=
  let filename : Option (List Char) :=
    match view with
    | some v => v.file_name
    | none => none
  let rel_filename : Option (List Char) :=
    if pyTruthy filename ∧ pyTruthy cwd then
      some (relpath (filename.getD []) (cwd.getD []))
    else if ¬ pyTruthy filename then
      some (match view with
            | some v => ('<' :: "buffer ".data) ++ natChars v.buffer_id ++ ['>']
            | none => ['<', '?', '>'])
    else none
  let real_cwd : List Char := if pyTruthy cwd then cwd.getD [] else realCwd
  if is_stdin ∧ rel_filename = none then none
  else
    let pipe : List Char :=
      if is_stdin then
        (if osIsNt then " type ".data else " cat ".data) ++ rel_filename.getD [] ++ " |".data
      else []
    let exec_msg : List Char :=
      headline ++ "\n\n  ".data ++ real_cwd ++ "  (working dir)\n  ".data
        ++ [if osIsNt then '>' else '$'] ++ pipe ++ [' ']
        ++ joinChar ' ' cmd ++ ['\n']
    let env_msg : List Char :=
      match env with
      | some e =>
        if e.isEmpty then []
        else
          "\n  Modified environment:\n\n  ".data ++ pformat e
            ++ "\n\n  Type: `import os; os.environ` in the Sublime console to get the full environment.\n".data
      | none => []
    some (exec_msg ++ env_msg)

/-! ### `communicate` (util.py:219-289) and the Live Process Registry

`communicate(cmd, code, output_stream, env, cwd, _linter)` launches the
command and returns the selected decoded output.  The embedding makes the
interactions explicit:

* `spawnOk` — whether `subprocess.Popen` succeeds; on failure the source logs
  an error via `make_nice_log_message` (whose own `UnboundLocalError`, when it
  occurs, propagates out of `communicate`: nothing is logged, nobody is
  notified), notifies `_linter.notify_failure()` when a linter is present, and
  returns `''`.
* `infoEnabled` — `logger.isEnabledFor(logging.INFO)`; when enabled the source
  formats a `Running ...` message with the same formatter before touching the
  registry (again a formatter error propagates, before any registration).
* on success the child handle `procId` is appended to
  `persist.active_procs[bid]` under the registry lock, `proc.communicate(code)`
  runs (`collectOk` says whether it raises), and the handle is removed in a
  `finally` block, so deregistration happens even when collection raises.
* `out = (stdout, stderr)` where a stream is `None` unless its pipe was
  requested by `output_stream & STREAM_STDOUT` / `& STREAM_STDERR`; the child's
  bytes on the piped streams are `childOut` / `childErr`.
* result selection per `output_stream`; with `STREAM_BOTH` and a linter whose
  `on_stderr` is callable, the post-processed stderr is passed to the callback
  only when non-blank after `str.strip()`, and stdout alone is returned.
* when `output_stream` equals none of `STREAM_STDOUT`, `STREAM_STDERR`,
  `STREAM_BOTH`, the Python function falls through and returns `None`,
  modelled as `CommResult.value none`.
* the failure-path `augmented_env` computation takes the `AttributeError`
  branch for a plain dict env (the common case) and passes `None`; the env
  argument therefore only influences log text and is omitted from the model.

The registry container `persist.active_procs` is not part of `src/`.
Modelled from the spec: the Live Process Registry is a mapping from an owner
key (the buffer id, possibly absent) to the list of in-flight process handles,
guarded by a lock; `register` appends the handle to the owner's entry
(creating it if absent), `deregister` removes it (Python `list.remove`:
first occurrence). -/

/-- `STREAM_STDOUT` (util.py:17). -/
def STREAM_STDOUT : Nat := 1

/-- `STREAM_STDERR` (util.py:18). -/
def STREAM_STDERR : Nat := 2

/-- `STREAM_BOTH` (util.py:19). -/
def STREAM_BOTH : Nat := STREAM_STDOUT + STREAM_STDERR

/-- The linter object as used by `communicate`: its `view` attribute and
whether its `on_stderr` attribute is callable. -/
structure Linter where
  view : Option View
  on_stderr_callable : Bool
deriving DecidableEq

/-- Observable events of one `communicate` call, in order of occurrence. -/
inductive Ev where
  | register (bid : Option Nat) (proc : Nat)
  | collect
  | deregister (bid : Option Nat) (proc : Nat)
  | logError
  | logInfo
  | notifyFailure
  | onStderr (s : List Char)
deriving DecidableEq

/-- The outcome of a `communicate` call as seen by its caller: either an
exception propagated out of the call, or the returned Python value (`none`
models Python `None`, `some s` the string `s`). -/
inductive CommResult where
  | raised
  | value (v : Option (List Char))
deriving DecidableEq

/-- Result and event trace of one `communicate` call. -/
structure CommOutcome where
  result : CommResult
  trace : List Ev
deriving DecidableEq

/-- Python `str.isspace` characters stripped by `str.strip()` (the ASCII
whitespace relevant to tool output). -/
def isPySpace (c : Char) : Bool :=
  c = ' ' ∨ c = '\t' ∨ c = '\n' ∨ c = '\r' ∨ c = Char.ofNat 11 ∨ c = Char.ofNat 12

/-- Python `s.strip()`. -/
def pyStrip (l : List Char) : List Char :=
  ((l.dropWhile isPySpace).reverse.dropWhile isPySpace).reverse

/-- The `view` used by `communicate`: `_linter.view if _linter else None`
(util.py:236). -/
def linterView (lint : Option Linter) : Option View :=
  match lint with
  | some l => l.view
  | none => none

/-- The registry owner key: `view.buffer_id() if view else None` (util.py:237). -/
def linterBid (lint : Option Linter) : Option Nat :=
  match linterView lint with
  | some v => some v.buffer_id
  | none => none

/-- The headline of the failure log message:
`'  Execution failed\n\n  {}'.format(str(err))` (util.py:255). -/
def execFailedHeadline (errText : List Char) : List Char :=
  "  Execution failed\n\n  ".data ++ errText

/-- The headline of the info log message (util.py:266). -/
def runningHeadline : List Char := "Running ...".data

/-- The part of `communicate` after a successful launch and a successful
info-log (util.py:268-289): register, collect (deregistering in `finally`),
then select the result by `output_stream`. -/
def communicateRest (fallback : List Nat → List Char) (collectOk : Bool) (procId : Nat)
    (childOut childErr : List Nat) (output_stream : Nat) (lint : Option Linter)
    (bid : Option Nat) (pre : List Ev) : CommOutcome :=
  let out0 : Option (List Nat) :=
    if output_stream &&& STREAM_STDOUT ≠ 0 then some childOut else none
  let out1 : Option (List Nat) :=
    if output_stream &&& STREAM_STDERR ≠ 0 then some childErr else none
  let core : List Ev := [Ev.register bid procId, Ev.collect, Ev.deregister bid procId]
  if collectOk = false then ⟨CommResult.raised, pre ++ core⟩
  else if output_stream = STREAM_STDOUT then
    ⟨CommResult.value (some (post_process_fh fallback out0)), pre ++ core⟩
  else if output_stream = STREAM_STDERR then
    ⟨CommResult.value (some (post_process_fh fallback out1)), pre ++ core⟩
  else if output_stream = STREAM_BOTH then
    match lint with
    | some l =>
      if l.on_stderr_callable then
        ⟨CommResult.value (some (post_process_fh fallback out0)),
          pre ++ core ++
            (if pyStrip (post_process_fh fallback out1) ≠ [] then
              [Ev.onStderr (post_process_fh fallback out1)]
            else [])⟩
      else
        ⟨CommResult.value (some (post_process_fh fallback out0 ++ post_process_fh fallback out1)),
          pre ++ core⟩
    | none =>
      ⟨CommResult.value (some (post_process_fh fallback out0 ++ post_process_fh fallback out1)),
        pre ++ core⟩
  else ⟨CommResult.value none, pre ++ core⟩

/-- `communicate(cmd, code, output_stream, env, cwd, _linter)` (util.py:219-289). -/
def communicate (fallback : List Nat → List Char)
    (relpath : List Char → List Char → List Char) (realCwd : List Char)
    (pformat : List (List Char × List Char) → List Char) (osIsNt : Bool)
    (errText : List Char) (infoEnabled : Bool) (spawnOk : Bool) (collectOk : Bool)
    (procId : Nat) (childOut childErr : List Nat) (cmd : List (List Char))
    (code : Option (List Char)) (output_stream : Nat) (cwd : Option (List Char))
    (lint : Option Linter) : CommOutcome :=
  let view := linterView lint
  let bid := linterBid lint
  let uses_stdin := code.isSome
  if spawnOk = false then
    match make_nice_log_message relpath realCwd pformat osIsNt (execFailedHeadline errText)
        cmd uses_stdin cwd view none with
    | none => ⟨CommResult.raised, []⟩
    | some _ =>
      ⟨CommResult.value (some []),
        Ev.logError :: (match lint with | some _ => [Ev.notifyFailure] | none => [])⟩
  else if infoEnabled then
    match make_nice_log_message relpath realCwd pformat osIsNt runningHeadline
        cmd uses_stdin cwd view none with
    | none => ⟨CommResult.raised, []⟩
    | some _ =>
      communicateRest fallback collectOk procId childOut childErr output_stream lint bid
        [Ev.logInfo]
  else
    communicateRest fallback collectOk procId childOut childErr output_stream lint bid []

/-- Registry state: owner key to list of in-flight handles (defaultdict-style,
absent owners have the empty list). -/
def applyEv (r : Option Nat → List Nat) : Ev → (Option Nat → List Nat)
  | Ev.register b p => fun k => if k = b then r k ++ [p] else r k
  | Ev.deregister b p => fun k => if k = b then (r k).erase p else r k
  | _ => r

/-- Apply a trace of events to a registry state. -/
def applyTrace (r : Option Nat → List Nat) (t : List Ev) : Option Nat → List Nat :=
  t.foldl applyEv r

/-- An event that does not touch the registry. -/
def nonRegistryEv (e : Ev) : Prop :=
  (∀ b p, e ≠ Ev.register b p) ∧ (∀ b p, e ≠ Ev.deregister b p)

/-- Recognizer for `onStderr` events, used to state which callback invocations
a trace contains. -/
def isOnStderrEv : Ev → Bool
  | Ev.onStderr _ => true
  | _ => false

/-! ### General helper lemmas -/

theorem dictGet_dictSet_self {β : Type} (k : List Char) (v : β)
    (d : List (List Char × β)) : dictGet k (dictSet k v d) = some v := by
  induction d with
  | nil => simp [dictSet, dictGet]
  | cons kv rest ih =>
    rw [dictSet]
    by_cases h : kv.1 = k
    · rw [if_pos h, dictGet, if_pos rfl]
    · rw [if_neg h, dictGet, if_neg h, ih]

theorem flatMap_eq_nil_of_all {α β : Type} (l : List α) (f : α → List β)
    (h : ∀ x ∈ l, f x = []) : l.flatMap f = [] := by
  induction l with
  | nil => rfl
  | cons a rest ih =>
    rw [List.flatMap_cons, h a (List.mem_cons_self a rest),
      ih (fun x hx => h x (List.mem_cons_of_mem a hx))]
    rfl

theorem flatMap_eq_single (l : List (List Char)) (f : List Char → List (List Char))
    (b : List Char) (c : List Char) (hmem : b ∈ l) (hcount : l.count b = 1) (hb : f b = [c])
    (hother : ∀ x ∈ l, x ≠ b → f x = []) : l.flatMap f = [c] := by
  induction l with
  | nil => cases hmem
  | cons a rest ih =>
    rw [List.flatMap_cons]
    by_cases ha : a = b
    · subst ha
      rw [hb]
      have hnot : a ∉ rest := by
        rw [List.count_cons_self] at hcount
        have : rest.count a = 0 := by omega
        exact (List.count_eq_zero.mp this)
      have hrest : rest.flatMap f = [] := by
        refine flatMap_eq_nil_of_all rest f (fun x hx => ?_)
        refine hother x (List.mem_cons_of_mem a hx) (fun hxb => hnot (hxb ▸ hx))
      rw [hrest]
      simp
    · rw [hother a (List.mem_cons_self a rest) ha]
      have hmem2 : b ∈ rest := by
        cases List.mem_cons.mp hmem with
        | inl h => exact absurd h.symm ha
        | inr h => exact h
      have hcount2 : rest.count b = 1 := by
        rw [List.count_cons_of_ne (Ne.symm ha)] at hcount
        exact hcount
      rw [List.nil_append]
      exact ih hmem2 hcount2 (fun x hx hxb => hother x (List.mem_cons_of_mem a hx) hxb)

theorem map_ofNat_toNat (s : List Char) :
    (s.map Char.toNat).map Char.ofNat = s := by
  induction s with
  | nil => rfl
  | cons c rest ih => simp only [List.map_cons, Char.ofNat_toNat, ih]

theorem applyEv_nonreg (r : Option Nat → List Nat) (e : Ev) (h : nonRegistryEv e) :
    applyEv r e = r := by
  cases e with
  | register b p => exact absurd rfl (h.1 b p)
  | deregister b p => exact absurd rfl (h.2 b p)
  | collect => rfl
  | logError => rfl
  | logInfo => rfl
  | notifyFailure => rfl
  | onStderr s => rfl

theorem applyTrace_nonreg (t : List Ev) (h : ∀ e ∈ t, nonRegistryEv e)
    (r : Option Nat → List Nat) : applyTrace r t = r := by
  induction t generalizing r with
  | nil => rfl
  | cons e rest ih =>
    rw [applyTrace, List.foldl_cons, applyEv_nonreg r e (h e (List.mem_cons_self e rest))]
    exact ih (fun x hx => h x (List.mem_cons_of_mem e hx)) r

theorem erase_append_singleton_perm (p : Nat) (l : List Nat) :
    List.Perm ((l ++ [p]).erase p) l := by
  by_cases h : p ∈ l
  · rw [List.erase_append_left _ h]
    have h1 : List.Perm (l.erase p ++ [p]) (p :: l.erase p) :=
      List.perm_append_singleton p (l.erase p)
    have h2 : List.Perm l (p :: l.erase p) := List.perm_cons_erase h
    exact h1.trans h2.symm
  · rw [List.erase_append_right _ h]
    simp

/-- The registry effect of the core register/collect/deregister block: a
permutation of the original entry at the owner's key (and exactly the original
list at every other key). -/
theorem applyTrace_core (r : Option Nat → List Nat) (bid : Option Nat) (p : Nat) :
    (∀ k, List.Perm
      (applyTrace r [Ev.register bid p, Ev.collect, Ev.deregister bid p] k) (r k))
    ∧ (r bid = [] →
        applyTrace r [Ev.register bid p, Ev.collect, Ev.deregister bid p] bid = []) := by
  constructor
  · intro k
    show ((applyEv (applyEv (applyEv r (Ev.register bid p)) Ev.collect) (Ev.deregister bid p)) k).Perm (r k)
    simp only [applyEv]
    by_cases hk : k = bid
    · rw [if_pos hk, if_pos hk, hk]
      exact erase_append_singleton_perm p (r bid)
    · rw [if_neg hk, if_neg hk]
  · intro hemp
    show (applyEv (applyEv (applyEv r (Ev.register bid p)) Ev.collect) (Ev.deregister bid p)) bid = []
    simp only [applyEv]
    rw [if_pos trivial, if_pos trivial, hemp]
    simp


/-- On a successful launch, once the optional info-log formatting is known to
succeed, `communicate` is the post-launch body with the corresponding log
prefix. -/
theorem communicate_success (fallback : List Nat → List Char)
    (relpath : List Char → List Char → List Char) (realCwd : List Char)
    (pformat : List (List Char × List Char) → List Char) (osIsNt : Bool)
    (errText : List Char) (infoEnabled : Bool) (collectOk : Bool) (procId : Nat)
    (childOut childErr : List Nat) (cmd : List (List Char)) (code : Option (List Char))
    (output_stream : Nat) (cwd : Option (List Char)) (lint : Option Linter)
    (hlog : infoEnabled = true →
      (make_nice_log_message relpath realCwd pformat osIsNt runningHeadline
        cmd code.isSome cwd (linterView lint) none).isSome = true) :
    communicate fallback relpath realCwd pformat osIsNt errText infoEnabled true collectOk
        procId childOut childErr cmd code output_stream cwd lint
      = communicateRest fallback collectOk procId childOut childErr output_stream lint
          (linterBid lint) (if infoEnabled then [Ev.logInfo] else []) := by
  unfold communicate
  cases infoEnabled with
  | false => simp
  | true =>
    obtain ⟨s, hs⟩ := Option.isSome_iff_exists.mp (hlog rfl)
    simp [hs]

/-- The trace of the post-launch body always has the shape
`pre ++ [register, collect, deregister] ++ t` where `t` contains no registry
operation — deregistration happens even when collection raises. -/
theorem communicateRest_trace (fallback : List Nat → List Char) (collectOk : Bool)
    (procId : Nat) (childOut childErr : List Nat) (output_stream : Nat)
    (lint : Option Linter) (bid : Option Nat) (pre : List Ev) :
    ∃ t : List Ev,
      (communicateRest fallback collectOk procId childOut childErr output_stream lint
          bid pre).trace
        = pre ++ [Ev.register bid procId, Ev.collect, Ev.deregister bid procId] ++ t
      ∧ ∀ e ∈ t, nonRegistryEv e := by
  unfold communicateRest
  by_cases hcoll : collectOk = false
  · rw [if_pos hcoll]
    exact ⟨[], by simp, by simp⟩
  · rw [if_neg hcoll]
    by_cases h1 : output_stream = STREAM_STDOUT
    · rw [if_pos h1]
      exact ⟨[], by simp, by simp⟩
    · rw [if_neg h1]
      by_cases h2 : output_stream = STREAM_STDERR
      · rw [if_pos h2]
        exact ⟨[], by simp, by simp⟩
      · rw [if_neg h2]
        by_cases h3 : output_stream = STREAM_BOTH
        · rw [if_pos h3]
          cases lint with
          | none => exact ⟨[], by simp, by simp⟩
          | some l =>
            dsimp only
            by_cases hcb : l.on_stderr_callable
            · rw [if_pos hcb]
              refine ⟨if pyStrip (post_process_fh fallback
                  (if output_stream &&& STREAM_STDERR ≠ 0 then some childErr else none)) ≠ []
                    then [Ev.onStderr (post_process_fh fallback
                      (if output_stream &&& STREAM_STDERR ≠ 0 then some childErr else none))]
                    else [], by simp, ?_⟩
              intro e he
              by_cases hne : pyStrip (post_process_fh fallback
                  (if output_stream &&& STREAM_STDERR ≠ 0 then some childErr else none)) ≠ []
              · rw [if_pos hne] at he
                cases List.mem_singleton.mp he
                exact ⟨fun b p h => Ev.noConfusion h, fun b p h => Ev.noConfusion h⟩
              · rw [if_neg hne] at he
                cases he
            · rw [if_neg hcb]
              exact ⟨[], by simp, by simp⟩
        · rw [if_neg h3]
          exact ⟨[], by simp, by simp⟩

/-! ### Claim theorems -/

/-- C1, counterexample: stripping ANSI SGR sequences is NOT idempotent in
general.  On `"\033\033[31m[31m"` the first pass removes the inner
`\033[31m`, gluing the leading stray ESC to the following `[31m` so that the
output `"\033[31m"` is itself an SGR sequence, which a second pass removes. -/
theorem C1_counterexample :
    stripAnsi (stripAnsi (escChar :: escChar :: "[31m[31m".data))
      ≠ stripAnsi (escChar :: escChar :: "[31m[31m".data) := by decide

/-- C1 (amended): stripping ANSI SGR sequences is idempotent on every text
whose stripped form contains no ESC character (in particular on any text in
which every ESC begins a complete SGR sequence, and on any ESC-free text); and
`strip_ansi("\033[31mred\033[0m")` equals `"red"`. -/
theorem C1_stripAnsi_idempotent (x : List Char) (h : escChar ∉ stripAnsi x) :
    stripAnsi (stripAnsi x) = stripAnsi x
    ∧ stripAnsi (escChar :: "[31m".data ++ "red".data ++ escChar :: "[0m".data)
      = "red".data :=
  ⟨stripAnsi_of_no_esc (stripAnsi x) h, by decide⟩

/-- C1, witness: the amended idempotence law at the concrete colored text
`"\033[31mred\033[0m"`. -/
theorem C1_witness :
    stripAnsi (stripAnsi (escChar :: "[31m".data ++ "red".data ++ escChar :: "[0m".data))
      = stripAnsi (escChar :: "[31m".data ++ "red".data ++ escChar :: "[0m".data) :=
  (C1_stripAnsi_idempotent (escChar :: "[31m".data ++ "red".data ++ escChar :: "[0m".data)
    (by decide)).1

/-- C5: `decode` never raises (it is a total function); absent or empty input
yields the empty string; a byte sequence that is valid UTF-8 yields its UTF-8
decoding (shown against an independent standard UTF-8 encoder); an invalid
sequence yields the fallback decoding under the host's preferred encoding with
replacement characters (a total function of the bytes) rather than failing. -/
theorem C5_decode (fallback : List Nat → List Char) :
    decode fallback none = []
    ∧ decode fallback (some []) = []
    ∧ (∀ s : List Char, decode fallback (some (utf8Encode s)) = s)
    ∧ (∀ bs : List Nat, utf8DecodeList bs = none → decode fallback (some bs) = fallback bs) := by
  refine ⟨rfl, rfl, ?_, ?_⟩
  · intro s
    cases s with
    | nil => rfl
    | cons c cs =>
      unfold decode
      dsimp only
      rw [if_neg (fun hP =>
        List.noConfusion (utf8Encode_eq_nil (c :: cs) (List.isEmpty_iff.mp hP)))]
      rw [utf8DecodeList_utf8Encode (c :: cs)]
      exact map_ofNat_toNat (c :: cs)
  · intro bs h
    unfold decode
    dsimp only
    by_cases he : bs.isEmpty
    · exfalso
      rw [List.isEmpty_iff.mp he] at h
      exact absurd h (by decide)
    · rw [if_neg he, h]

/-- C5, witness: the invalid byte `0xFF` falls back, and the UTF-8 encoding of
`"ab"` decodes back to `"ab"`. -/
theorem C5_witness :
    decode (fun _ => ['?']) (some [255]) = ['?']
    ∧ decode (fun _ => ['?']) (some (utf8Encode ("ab".data))) = "ab".data :=
  ⟨(C5_decode (fun _ => ['?'])).2.2.2 [255] (by decide),
   (C5_decode (fun _ => ['?'])).2.2.1 ("ab".data)⟩

/-- C9: `make_nice_log_message` is NOT total.  When input was sent via stdin
(`is_stdin = True`), the view has a backing file, and no working directory is
supplied, `rel_filename` is assigned on no branch of util.py:193-196 and
`PIPE_TEMPLATE.format(rel_filename)` (util.py:204) raises `UnboundLocalError`
(modelled as `none`); with a working directory supplied the same call returns
the formatted text. -/
theorem C9_make_nice_log_message_unbound :
    make_nice_log_message (fun _ _ => []) [] (fun _ => []) false ("h".data) [] true none
        (some (View.mk (some ("f".data)) 3)) none = none
    ∧ (make_nice_log_message (fun _ _ => []) [] (fun _ => []) false ("h".data) [] true
        (some ("/w".data)) (some (View.mk (some ("f".data)) 3)) none).isSome = true :=
  ⟨by decide, by decide⟩

/-- C10: with a successful launch and any selector other than
`STREAM_STDOUT`, `STREAM_STDERR`, `STREAM_BOTH` (for example `0`),
`communicate` falls through every result-selection branch and returns Python
`None` rather than a string. -/
theorem C10_communicate_fallthrough (fallback : List Nat → List Char)
    (relpath : List Char → List Char → List Char) (realCwd : List Char)
    (pformat : List (List Char × List Char) → List Char) (osIsNt : Bool)
    (errText : List Char) (infoEnabled : Bool) (procId : Nat)
    (childOut childErr : List Nat) (cmd : List (List Char)) (code : Option (List Char))
    (output_stream : Nat) (cwd : Option (List Char)) (lint : Option Linter)
    (hlog : infoEnabled = true →
      (make_nice_log_message relpath realCwd pformat osIsNt runningHeadline
        cmd code.isSome cwd (linterView lint) none).isSome = true)
    (h1 : output_stream ≠ STREAM_STDOUT) (h2 : output_stream ≠ STREAM_STDERR)
    (h3 : output_stream ≠ STREAM_BOTH) :
    (communicate fallback relpath realCwd pformat osIsNt errText infoEnabled true true
        procId childOut childErr cmd code output_stream cwd lint).result
      = CommResult.value none := by
  rw [communicate_success fallback relpath realCwd pformat osIsNt errText infoEnabled true
    procId childOut childErr cmd code output_stream cwd lint hlog]
  unfold communicateRest
  rw [if_neg (by decide), if_neg h1, if_neg h2, if_neg h3]

/-- C10, witness: selector `0` with a successful launch returns `None`. -/
theorem C10_witness :
    (communicate (fun _ => []) (fun _ _ => []) [] (fun _ => []) false [] false true true 7
        [97] [98] [] none 0 none none).result = CommResult.value none :=
  C10_communicate_fallthrough (fun _ => []) (fun _ _ => []) [] (fun _ => []) false [] false 7
    [97] [98] [] none 0 none none (fun h => Bool.noConfusion h)
    (by decide) (by decide) (by decide)

/-- One PATH entry yields nothing when neither the direct candidate nor any
Windows extension variant is executable. -/
theorem dir_probe_nil (platform : List Char) (can_exec : List Char → Bool)
    (expanduser : List Char → List Char) (join : List Char → List Char → List Char)
    (executable base : List Char)
    (h0 : can_exec (join (expanduser base) executable) = false)
    (h1 : can_exec (join (expanduser base) executable ++ ".exe".data) = false)
    (h2 : can_exec (join (expanduser base) executable ++ ".cmd".data) = false)
    (h3 : can_exec (join (expanduser base) executable ++ ".bat".data) = false) :
    dir_probe platform can_exec expanduser join executable base = [] := by
  unfold dir_probe
  by_cases hw : platform = windowsStr ∧ ntExt (join (expanduser base) executable) = []
  · rw [if_pos hw]
    simp only [winExts, List.map_cons, List.map_nil]
    rw [List.filter_cons, List.filter_cons, List.filter_cons, List.filter_nil]
    rw [show (['.', 'e', 'x', 'e'] : List Char) = ".exe".data from rfl, h1]
    rw [show (['.', 'c', 'm', 'd'] : List Char) = ".cmd".data from rfl, h2]
    rw [show (['.', 'b', 'a', 't'] : List Char) = ".bat".data from rfl, h3]
    rfl
  · rw [if_neg hw, if_neg (by rw [h0]; exact Bool.false_ne_true)]

/-- C2: `create_environment` with no configured paths entry for the current
platform returns the inherited environment unchanged (in particular its PATH
is exactly the inherited PATH; the model is pure, so the inherited mapping is
never mutated); with configured paths `[pa, pb]` (fixed by normalization, as
`"/a"`, `"/b"` are) and inherited PATH `orig`, it returns the inherited
environment with PATH rebound to `pa ⧺ sep ⧺ pb ⧺ sep ⧺ orig`. -/
theorem C2_create_environment (environ : List (List Char × List Char))
    (settings_paths : List (List Char × List (List Char)))
    (platform : List Char) (norm : List Char → List Char) (pathsep : Char) :
    (dictGet platform settings_paths = none →
      create_environment environ settings_paths platform norm pathsep = some environ)
    ∧ (∀ pa pb orig, dictGet platform settings_paths = some [pa, pb] →
        norm pa = pa → norm pb = pb → dictGet pathKey environ = some orig →
        create_environment environ settings_paths platform norm pathsep
          = some (dictSet pathKey (pa ++ pathsep :: (pb ++ pathsep :: orig)) environ)
        ∧ dictGet pathKey (dictSet pathKey (pa ++ pathsep :: (pb ++ pathsep :: orig)) environ)
          = some (pa ++ pathsep :: (pb ++ pathsep :: orig))) := by
  constructor
  · intro h
    unfold create_environment
    rw [h]
  · intro pa pb orig hps hna hnb hpath
    refine ⟨?_, dictGet_dictSet_self pathKey _ environ⟩
    unfold create_environment
    rw [hps]
    dsimp only
    rw [List.map_cons, List.map_cons, List.map_nil, hna, hnb]
    rw [if_neg (by simp)]
    rw [hpath]
    dsimp only
    have hj : joinChar pathsep [pa, pb] = pa ++ pathsep :: pb := rfl
    rw [hj]
    simp [List.append_assoc]

/-- C2, witness: a concrete inherited environment with and without a
configured paths entry. -/
theorem C2_witness :
    create_environment [(pathKey, "/usr/bin".data)] [] ("linux".data) (fun s => s) ':'
        = some [(pathKey, "/usr/bin".data)]
    ∧ create_environment [(pathKey, "/usr/bin".data)]
          [(("linux".data), ["/a".data, "/b".data])] ("linux".data) (fun s => s) ':'
        = some (dictSet pathKey ("/a".data ++ ':' :: ("/b".data ++ ':' :: "/usr/bin".data))
            [(pathKey, "/usr/bin".data)]) :=
  ⟨(C2_create_environment [(pathKey, "/usr/bin".data)] [] ("linux".data) (fun s => s) ':').1
      (by decide),
   ((C2_create_environment [(pathKey, "/usr/bin".data)]
        [(("linux".data), ["/a".data, "/b".data])] ("linux".data) (fun s => s) ':').2
      ("/a".data) ("/b".data) ("/usr/bin".data) (by decide) rfl rfl (by decide)).1⟩

/-- C3: when no probed candidate (the direct candidate and, for Windows, all
extension variants) is executable in any directory of the resolved PATH,
`which` returns `None` without raising; when probing finds a match in exactly
one PATH directory, `which` returns that candidate's path; on a non-Windows
platform a directory's probe is exactly the direct candidate when it is
executable. -/
theorem C3_which (platform : List Char) (can_exec : List Char → Bool)
    (expanduser : List Char → List Char) (join : List Char → List Char → List Char)
    (pathsep : Char) (env : List (List Char × List Char)) (executable : List Char) :
    ((∀ base ∈ splitOnChar pathsep ((dictGet pathKey env).getD []),
        can_exec (join (expanduser base) executable) = false
        ∧ can_exec (join (expanduser base) executable ++ ".exe".data) = false
        ∧ can_exec (join (expanduser base) executable ++ ".cmd".data) = false
        ∧ can_exec (join (expanduser base) executable ++ ".bat".data) = false) →
      which platform can_exec expanduser join pathsep env executable = none)
    ∧ (∀ b c, b ∈ splitOnChar pathsep ((dictGet pathKey env).getD []) →
        (splitOnChar pathsep ((dictGet pathKey env).getD [])).count b = 1 →
        dir_probe platform can_exec expanduser join executable b = [c] →
        (∀ x ∈ splitOnChar pathsep ((dictGet pathKey env).getD []), x ≠ b →
          dir_probe platform can_exec expanduser join executable x = []) →
        which platform can_exec expanduser join pathsep env executable = some c)
    ∧ (∀ b, platform ≠ windowsStr →
        can_exec (join (expanduser b) executable) = true →
        dir_probe platform can_exec expanduser join executable b
          = [join (expanduser b) executable]) := by
  refine ⟨?_, ?_, ?_⟩
  · intro h
    unfold which find_executables
    rw [flatMap_eq_nil_of_all _ _ (fun base hb =>
      dir_probe_nil platform can_exec expanduser join executable base
        (h base hb).1 (h base hb).2.1 (h base hb).2.2.1 (h base hb).2.2.2)]
    rfl
  · intro b c hmem hcount hb hother
    unfold which find_executables
    rw [flatMap_eq_single _ _ b c hmem hcount hb hother]
    rfl
  · intro b hplat hce
    unfold dir_probe
    rw [if_neg (fun hand => hplat hand.1), if_pos hce]

/-- C3, witness: with PATH `/u:/v` and only `/v/tool` executable, `which`
finds `/v/tool`; with nothing executable it returns `None`. -/
theorem C3_witness :
    which ("linux".data) (fun p => decide (p = "/v/tool".data)) (fun s => s)
        (fun d n => d ++ '/' :: n) ':' [(pathKey, "/u:/v".data)] ("tool".data)
      = some ("/v/tool".data)
    ∧ which ("linux".data) (fun _ => false) (fun s => s)
        (fun d n => d ++ '/' :: n) ':' [(pathKey, "/u:/v".data)] ("tool".data)
      = none :=
  ⟨(C3_which ("linux".data) (fun p => decide (p = "/v/tool".data)) (fun s => s)
      (fun d n => d ++ '/' :: n) ':' [(pathKey, "/u:/v".data)] ("tool".data)).2.1
        ("/v".data) ("/v/tool".data) (by decide) (by decide) (by decide) (by decide),
   (C3_which ("linux".data) (fun _ => false) (fun s => s)
      (fun d n => d ++ '/' :: n) ':' [(pathKey, "/u:/v".data)] ("tool".data)).1
        (by decide)⟩

/-- C4: on the Windows platform, a candidate with no extension is probed as
`candidate + ".exe"`, `candidate + ".cmd"`, `candidate + ".bat"` in that fixed
order, yielding exactly the executable ones; so a single PATH directory whose
probe hits only `tool.exe` yields `[tool.exe]`, while the same search on a
non-Windows platform (where `tool` itself is not an executable file) yields
nothing. -/
theorem C4_find_executables (can_exec : List Char → Bool)
    (expanduser : List Char → List Char) (join : List Char → List Char → List Char)
    (pathsep : Char) (env : List (List Char × List Char)) (executable d : List Char)
    (hPath : dictGet pathKey env = some d)
    (hsplit : splitOnChar pathsep d = [d])
    (hnoext : ntExt (join (expanduser d) executable) = []) :
    (find_executables windowsStr can_exec expanduser join pathsep env executable
        = [join (expanduser d) executable ++ ".exe".data,
           join (expanduser d) executable ++ ".cmd".data,
           join (expanduser d) executable ++ ".bat".data].filter can_exec)
    ∧ (can_exec (join (expanduser d) executable ++ ".exe".data) = true →
        can_exec (join (expanduser d) executable ++ ".cmd".data) = false →
        can_exec (join (expanduser d) executable ++ ".bat".data) = false →
        find_executables windowsStr can_exec expanduser join pathsep env executable
          = [join (expanduser d) executable ++ ".exe".data])
    ∧ (∀ platform, platform ≠ windowsStr →
        can_exec (join (expanduser d) executable) = false →
        find_executables platform can_exec expanduser join pathsep env executable = []) := by
  have hbase : ∀ (plat : List Char),
      find_executables plat can_exec expanduser join pathsep env executable
        = dir_probe plat can_exec expanduser join executable d := by
    intro plat
    unfold find_executables
    rw [hPath]
    show (splitOnChar pathsep d).flatMap _ = _
    rw [hsplit, List.flatMap_cons, List.flatMap_nil, List.append_nil]
  refine ⟨?_, ?_, ?_⟩
  · rw [hbase windowsStr]
    unfold dir_probe
    rw [if_pos ⟨rfl, hnoext⟩]
    rfl
  · intro hexe hcmd hbat
    rw [hbase windowsStr]
    unfold dir_probe
    rw [if_pos ⟨rfl, hnoext⟩]
    simp only [winExts, List.map_cons, List.map_nil]
    rw [List.filter_cons, List.filter_cons, List.filter_cons, List.filter_nil]
    rw [show (['.', 'e', 'x', 'e'] : List Char) = ".exe".data from rfl, hexe]
    rw [show (['.', 'c', 'm', 'd'] : List Char) = ".cmd".data from rfl, hcmd]
    rw [show (['.', 'b', 'a', 't'] : List Char) = ".bat".data from rfl, hbat]
    rfl
  · intro platform hplat hce
    rw [hbase platform]
    unfold dir_probe
    rw [if_neg (fun hand => hplat hand.1), if_neg (by rw [hce]; exact Bool.false_ne_true)]

/-- C4, witness: PATH directory `C:\bin` containing only `tool.exe`: searching
`tool` yields `tool.exe` on Windows and nothing on Linux. -/
theorem C4_witness :
    find_executables windowsStr (fun p => decide (p = "C:\\bin\\tool.exe".data)) (fun s => s)
        (fun a b => a ++ '\\' :: b) ';' [(pathKey, "C:\\bin".data)] ("tool".data)
      = ["C:\\bin\\tool.exe".data]
    ∧ find_executables ("linux".data) (fun p => decide (p = "C:\\bin\\tool.exe".data))
        (fun s => s) (fun a b => a ++ '\\' :: b) ';' [(pathKey, "C:\\bin".data)] ("tool".data)
      = [] :=
  ⟨(C4_find_executables (fun p => decide (p = "C:\\bin\\tool.exe".data)) (fun s => s)
      (fun a b => a ++ '\\' :: b) ';' [(pathKey, "C:\\bin".data)] ("tool".data)
      ("C:\\bin".data) (by decide) (by decide) (by decide)).2.1 (by decide) (by decide)
      (by decide),
   (C4_find_executables (fun p => decide (p = "C:\\bin\\tool.exe".data)) (fun s => s)
      (fun a b => a ++ '\\' :: b) ';' [(pathKey, "C:\\bin".data)] ("tool".data)
      ("C:\\bin".data) (by decide) (by decide) (by decide)).2.2 ("linux".data) (by decide)
      (by decide)⟩

theorem communicateRest_stdout (fallback : List Nat → List Char) (procId : Nat)
    (childOut childErr : List Nat) (lint : Option Linter) (bid : Option Nat) (pre : List Ev) :
    communicateRest fallback true procId childOut childErr STREAM_STDOUT lint bid pre
      = ⟨CommResult.value (some (post_process_fh fallback (some childOut))),
         pre ++ [Ev.register bid procId, Ev.collect, Ev.deregister bid procId]⟩ := by
  simp [communicateRest, STREAM_STDOUT, STREAM_STDERR, STREAM_BOTH]

theorem communicateRest_stderr (fallback : List Nat → List Char) (procId : Nat)
    (childOut childErr : List Nat) (lint : Option Linter) (bid : Option Nat) (pre : List Ev) :
    communicateRest fallback true procId childOut childErr STREAM_STDERR lint bid pre
      = ⟨CommResult.value (some (post_process_fh fallback (some childErr))),
         pre ++ [Ev.register bid procId, Ev.collect, Ev.deregister bid procId]⟩ := by
  simp [communicateRest, STREAM_STDOUT, STREAM_STDERR, STREAM_BOTH]

theorem communicateRest_both_callback (fallback : List Nat → List Char) (procId : Nat)
    (childOut childErr : List Nat) (l : Linter) (bid : Option Nat) (pre : List Ev)
    (hcb : l.on_stderr_callable = true) :
    communicateRest fallback true procId childOut childErr STREAM_BOTH (some l) bid pre
      = ⟨CommResult.value (some (post_process_fh fallback (some childOut))),
         pre ++ [Ev.register bid procId, Ev.collect, Ev.deregister bid procId]
           ++ (if pyStrip (post_process_fh fallback (some childErr)) ≠ [] then
                [Ev.onStderr (post_process_fh fallback (some childErr))] else [])⟩ := by
  simp [communicateRest, STREAM_STDOUT, STREAM_STDERR, STREAM_BOTH, hcb]

theorem communicateRest_both_none (fallback : List Nat → List Char) (procId : Nat)
    (childOut childErr : List Nat) (bid : Option Nat) (pre : List Ev) :
    communicateRest fallback true procId childOut childErr STREAM_BOTH none bid pre
      = ⟨CommResult.value (some (post_process_fh fallback (some childOut)
            ++ post_process_fh fallback (some childErr))),
         pre ++ [Ev.register bid procId, Ev.collect, Ev.deregister bid procId]⟩ := by
  simp [communicateRest, STREAM_STDOUT, STREAM_STDERR, STREAM_BOTH]

theorem communicateRest_both_nocb (fallback : List Nat → List Char) (procId : Nat)
    (childOut childErr : List Nat) (l : Linter) (bid : Option Nat) (pre : List Ev)
    (hcb : l.on_stderr_callable = false) :
    communicateRest fallback true procId childOut childErr STREAM_BOTH (some l) bid pre
      = ⟨CommResult.value (some (post_process_fh fallback (some childOut)
            ++ post_process_fh fallback (some childErr))),
         pre ++ [Ev.register bid procId, Ev.collect, Ev.deregister bid procId]⟩ := by
  simp [communicateRest, STREAM_STDOUT, STREAM_STDERR, STREAM_BOTH, hcb]

/-- C6, counterexample: a failed launch with stdin input, a file-backed view
and no working directory makes the failure-path call to
`make_nice_log_message` raise `UnboundLocalError`, which propagates: the call
does not return a string, logs nothing, and never notifies the owner. -/
theorem C6_counterexample :
    communicate (fun _ => []) (fun _ _ => []) [] (fun _ => []) false [] false false true 7
        [] [] [] (some ("x".data)) 1 none
        (some (Linter.mk (some (View.mk (some ("f".data)) 3)) false))
      = CommOutcome.mk CommResult.raised [] := by decide

/-- C6 (amended): for every run whose launch fails and whose failure
diagnostic can actually be formatted (i.e. outside the formatter's
unbound-variable case of stdin input with a file-backed view and no working
directory), `communicate` logs an error diagnostic, invokes the owner's
failure-notification exactly once when an owner is present, and returns the
empty string; no launch exception propagates. -/
theorem C6_communicate_launch_failure (fallback : List Nat → List Char)
    (relpath : List Char → List Char → List Char) (realCwd : List Char)
    (pformat : List (List Char × List Char) → List Char) (osIsNt : Bool)
    (errText : List Char) (infoEnabled : Bool) (collectOk : Bool) (procId : Nat)
    (childOut childErr : List Nat) (cmd : List (List Char)) (code : Option (List Char))
    (output_stream : Nat) (cwd : Option (List Char)) (lint : Option Linter)
    (hlog : (make_nice_log_message relpath realCwd pformat osIsNt
        (execFailedHeadline errText) cmd code.isSome cwd (linterView lint) none).isSome
      = true) :
    (communicate fallback relpath realCwd pformat osIsNt errText infoEnabled false collectOk
        procId childOut childErr cmd code output_stream cwd lint).result
      = CommResult.value (some [])
    ∧ (communicate fallback relpath realCwd pformat osIsNt errText infoEnabled false collectOk
        procId childOut childErr cmd code output_stream cwd lint).trace.count Ev.notifyFailure
      = (if lint.isSome then 1 else 0)
    ∧ Ev.logError ∈ (communicate fallback relpath realCwd pformat osIsNt errText infoEnabled
        false collectOk procId childOut childErr cmd code output_stream cwd lint).trace := by
  obtain ⟨s, hs⟩ := Option.isSome_iff_exists.mp hlog
  cases lint with
  | none =>
    have hc : communicate fallback relpath realCwd pformat osIsNt errText infoEnabled false
        collectOk procId childOut childErr cmd code output_stream cwd none
        = ⟨CommResult.value (some []), [Ev.logError]⟩ := by
      unfold communicate
      rw [if_pos rfl, hs]
    rw [hc]
    exact ⟨rfl, by decide, by decide⟩
  | some l =>
    have hc : communicate fallback relpath realCwd pformat osIsNt errText infoEnabled false
        collectOk procId childOut childErr cmd code output_stream cwd (some l)
        = ⟨CommResult.value (some []), [Ev.logError, Ev.notifyFailure]⟩ := by
      unfold communicate
      rw [if_pos rfl, hs]
    rw [hc]
    refine ⟨rfl, ?_, by decide⟩
    show List.count Ev.notifyFailure [Ev.logError, Ev.notifyFailure] = 1
    decide

/-- C6, witness: a failed launch without stdin input, owner present. -/
theorem C6_witness :
    (communicate (fun _ => []) (fun _ _ => []) [] (fun _ => []) false [] false false true 7
        [] [] [] none 1 none
        (some (Linter.mk (some (View.mk (some ("f".data)) 3)) false))).result
      = CommResult.value (some [])
    ∧ (communicate (fun _ => []) (fun _ _ => []) [] (fun _ => []) false [] false false true 7
        [] [] [] none 1 none
        (some (Linter.mk (some (View.mk (some ("f".data)) 3)) false))).trace.count
          Ev.notifyFailure = 1
    ∧ Ev.logError ∈ (communicate (fun _ => []) (fun _ _ => []) [] (fun _ => []) false [] false
        false true 7 [] [] [] none 1 none
        (some (Linter.mk (some (View.mk (some ("f".data)) 3)) false))).trace := by
  have h := C6_communicate_launch_failure (fun _ => []) (fun _ _ => []) [] (fun _ => []) false
    [] false true 7 [] [] [] none 1 none
    (some (Linter.mk (some (View.mk (some ("f".data)) 3)) false)) (by decide)
  exact h

theorem applyTrace_append (r : Option Nat → List Nat) (t1 t2 : List Ev) :
    applyTrace r (t1 ++ t2) = applyTrace (applyTrace r t1) t2 := by
  simp [applyTrace, List.foldl_append]

theorem applyTrace_pre (r : Option Nat → List Nat) (b : Bool) :
    applyTrace r (if b = true then [Ev.logInfo] else []) = r := by
  cases b <;> rfl

/-- C7: for a successful run (launch and collection succeed, and the optional
info-log formatting succeeds), the result is selected as follows: stdout-only
yields the decoded and ANSI-stripped stdout; stderr-only yields the decoded
and ANSI-stripped stderr; both with an owner whose stderr callback is callable
yields the decoded stdout alone while the callback receives the decoded
stderr exactly when it is non-blank; both without such a callback yields the
concatenation of the two decoded streams, with no callback invocation. -/
theorem C7_communicate_result_selection (fallback : List Nat → List Char)
    (relpath : List Char → List Char → List Char) (realCwd : List Char)
    (pformat : List (List Char × List Char) → List Char) (osIsNt : Bool)
    (errText : List Char) (infoEnabled : Bool) (procId : Nat)
    (childOut childErr : List Nat) (cmd : List (List Char)) (code : Option (List Char))
    (cwd : Option (List Char)) (lint : Option Linter)
    (hlog : infoEnabled = true →
      (make_nice_log_message relpath realCwd pformat osIsNt runningHeadline
        cmd code.isSome cwd (linterView lint) none).isSome = true) :
    ((communicate fallback relpath realCwd pformat osIsNt errText infoEnabled true true
        procId childOut childErr cmd code STREAM_STDOUT cwd lint).result
      = CommResult.value (some (post_process_fh fallback (some childOut))))
    ∧ ((communicate fallback relpath realCwd pformat osIsNt errText infoEnabled true true
        procId childOut childErr cmd code STREAM_STDERR cwd lint).result
      = CommResult.value (some (post_process_fh fallback (some childErr))))
    ∧ (∀ l, lint = some l → l.on_stderr_callable = true →
        (communicate fallback relpath realCwd pformat osIsNt errText infoEnabled true true
            procId childOut childErr cmd code STREAM_BOTH cwd lint).result
          = CommResult.value (some (post_process_fh fallback (some childOut)))
        ∧ (communicate fallback relpath realCwd pformat osIsNt errText infoEnabled true true
            procId childOut childErr cmd code STREAM_BOTH cwd lint).trace.filter isOnStderrEv
          = (if pyStrip (post_process_fh fallback (some childErr)) ≠ [] then
              [Ev.onStderr (post_process_fh fallback (some childErr))] else []))
    ∧ ((lint = none ∨ ∃ l, lint = some l ∧ l.on_stderr_callable = false) →
        (communicate fallback relpath realCwd pformat osIsNt errText infoEnabled true true
            procId childOut childErr cmd code STREAM_BOTH cwd lint).result
          = CommResult.value (some (post_process_fh fallback (some childOut)
              ++ post_process_fh fallback (some childErr)))
        ∧ (communicate fallback relpath realCwd pformat osIsNt errText infoEnabled true true
            procId childOut childErr cmd code STREAM_BOTH cwd lint).trace.filter isOnStderrEv
          = []) := by
  have h1 := communicate_success fallback relpath realCwd pformat osIsNt errText infoEnabled
    true procId childOut childErr cmd code STREAM_STDOUT cwd lint hlog
  have h2 := communicate_success fallback relpath realCwd pformat osIsNt errText infoEnabled
    true procId childOut childErr cmd code STREAM_STDERR cwd lint hlog
  have h3 := communicate_success fallback relpath realCwd pformat osIsNt errText infoEnabled
    true procId childOut childErr cmd code STREAM_BOTH cwd lint hlog
  have hpre : List.filter isOnStderrEv (if infoEnabled = true then [Ev.logInfo] else []) = [] := by
    cases infoEnabled <;> rfl
  refine ⟨?_, ?_, ?_, ?_⟩
  · rw [h1, communicateRest_stdout]
  · rw [h2, communicateRest_stderr]
  · intro l hl hcb
    subst hl
    rw [h3, communicateRest_both_callback fallback procId childOut childErr l
      (linterBid (some l)) (if infoEnabled = true then [Ev.logInfo] else []) hcb]
    refine ⟨rfl, ?_⟩
    dsimp only
    rw [List.filter_append, List.filter_append, hpre]
    by_cases hsb : pyStrip (post_process_fh fallback (some childErr)) ≠ []
    · rw [if_pos hsb]
      rfl
    · rw [if_neg hsb]
      rfl
  · intro hdisj
    cases hdisj with
    | inl hnone =>
      subst hnone
      rw [h3, communicateRest_both_none]
      refine ⟨rfl, ?_⟩
      dsimp only
      rw [List.filter_append, hpre]
      rfl
    | inr hex =>
      obtain ⟨l, hl, hcb⟩ := hex
      subst hl
      rw [h3, communicateRest_both_nocb fallback procId childOut childErr l
        (linterBid (some l)) (if infoEnabled = true then [Ev.logInfo] else []) hcb]
      refine ⟨rfl, ?_⟩
      dsimp only
      rw [List.filter_append, hpre]
      rfl

/-- C7, witness: stdout-only selection on a concrete successful run. -/
theorem C7_witness :
    (communicate (fun _ => []) (fun _ _ => []) [] (fun _ => []) false [] false true true 7
        [97] [98] [] none STREAM_STDOUT none none).result
      = CommResult.value (some (post_process_fh (fun _ => []) (some [97]))) :=
  (C7_communicate_result_selection (fun _ => []) (fun _ _ => []) [] (fun _ => []) false []
    false 7 [97] [98] [] none none none (fun h => Bool.noConfusion h)).1

/-- C8: on every successful launch the child handle is registered under the
owner's key before the blocking collection and deregistered unconditionally
afterwards — also when collection raises (`collectOk` arbitrary): the trace is
always `log? ++ [register, collect, deregister] ++ rest` with no further
registry operation; hence the registry after the run is a permutation of the
registry before at every key, and an owner whose entry was empty before the
run has an empty entry after it.
The registry container `persist.active_procs` is not part of `src/` and its
semantics (`applyEv`) is modelled from the spec. -/
theorem C8_communicate_registry (fallback : List Nat → List Char)
    (relpath : List Char → List Char → List Char) (realCwd : List Char)
    (pformat : List (List Char × List Char) → List Char) (osIsNt : Bool)
    (errText : List Char) (infoEnabled : Bool) (collectOk : Bool) (procId : Nat)
    (childOut childErr : List Nat) (cmd : List (List Char)) (code : Option (List Char))
    (output_stream : Nat) (cwd : Option (List Char)) (lint : Option Linter)
    (hlog : infoEnabled = true →
      (make_nice_log_message relpath realCwd pformat osIsNt runningHeadline
        cmd code.isSome cwd (linterView lint) none).isSome = true) :
    (∃ t : List Ev,
      (communicate fallback relpath realCwd pformat osIsNt errText infoEnabled true collectOk
          procId childOut childErr cmd code output_stream cwd lint).trace
        = (if infoEnabled = true then [Ev.logInfo] else [])
            ++ [Ev.register (linterBid lint) procId, Ev.collect,
                Ev.deregister (linterBid lint) procId] ++ t
      ∧ ∀ e ∈ t, nonRegistryEv e)
    ∧ (∀ r : Option Nat → List Nat, ∀ k : Option Nat,
        List.Perm
          (applyTrace r (communicate fallback relpath realCwd pformat osIsNt errText
            infoEnabled true collectOk procId childOut childErr cmd code output_stream cwd
            lint).trace k)
          (r k))
    ∧ (∀ r : Option Nat → List Nat, r (linterBid lint) = [] →
        applyTrace r (communicate fallback relpath realCwd pformat osIsNt errText infoEnabled
          true collectOk procId childOut childErr cmd code output_stream cwd lint).trace
          (linterBid lint) = []) := by
  have hcs := communicate_success fallback relpath realCwd pformat osIsNt errText infoEnabled
    collectOk procId childOut childErr cmd code output_stream cwd lint hlog
  obtain ⟨t, ht, hnr⟩ := communicateRest_trace fallback collectOk procId childOut childErr
    output_stream lint (linterBid lint) (if infoEnabled = true then [Ev.logInfo] else [])
  have htr : (communicate fallback relpath realCwd pformat osIsNt errText infoEnabled true
      collectOk procId childOut childErr cmd code output_stream cwd lint).trace
      = (if infoEnabled = true then [Ev.logInfo] else [])
          ++ [Ev.register (linterBid lint) procId, Ev.collect,
              Ev.deregister (linterBid lint) procId] ++ t := by
    rw [hcs]
    exact ht
  refine ⟨⟨t, htr, hnr⟩, ?_, ?_⟩
  · intro r k
    rw [htr, applyTrace_append, applyTrace_append, applyTrace_pre,
      applyTrace_nonreg t hnr]
    exact (applyTrace_core r (linterBid lint) procId).1 k
  · intro r hemp
    rw [htr, applyTrace_append, applyTrace_append, applyTrace_pre,
      applyTrace_nonreg t hnr]
    exact (applyTrace_core r (linterBid lint) procId).2 hemp

/-- C8, witness: a concrete completed run leaves the owner's (initially empty)
registry entry empty. -/
theorem C8_witness :
    applyTrace (fun _ => []) ((communicate (fun _ => []) (fun _ _ => []) [] (fun _ => [])
        false [] false true true 7 [97] [98] [] none 1 none none).trace) none = [] :=
  (C8_communicate_registry (fun _ => []) (fun _ _ => []) [] (fun _ => []) false [] false true
    7 [97] [98] [] none 1 none none (fun h => Bool.noConfusion h)).2.2 (fun _ => []) rfl


end SublimeLinterUtil
